import Mathlib

/-!
Verification of the data-egress service
(`addons/addon-base-raas/packages/base-raas-services/lib/data-egress/data-egress-service.js`).

The service is embedded shallowly: each asynchronous method becomes a pure
Lean function that threads an explicit `SysState` (DynamoDB table, S3 object
listings, S3 bucket policy, SNS-published messages) and returns
`Except EgressError α × SysState`, where the returned state reflects every
side effect performed before a throw.  External collaborators (settings,
lock service, KMS, uuid, clock) become explicit parameters; the lock service
serializes the critical sections, so each method is modelled as running its
read-modify-write cycle atomically.

The S3-bucket-policy helpers (`getRevisedS3Statements`,
`addAccountToStatement`, `removeAccountFromStatement`, `updateS3BucketPolicy`
from `base-raas-services/lib/helpers/utils`) are not part of the sources of
this development; the definitions in the policy section are modelled from the
specification (section 4.2 of the design document) and are marked as such.

JavaScript peculiarities are kept:
* `new Date().toISOString` on line 121 reads the method without invoking it,
  so `createdAt`/`updatedAt` of a freshly created record hold a function
  reference; the type `JsTimeVal` distinguishes that value from a string.
* a property access on a `null` record lookup raises a runtime type error,
  modelled by `EgressError.nullDereference`.
* `String.prototype.toUpperCase`, `String.prototype.split` and JS array
  operations are re-implemented over `List Char` so that every definition
  evaluates inside the kernel.
* the size rendering of `bytesToSize` (lines 319-325) computes
  `Math.log(bytes) / Math.log(1024)` and `Math.round` in IEEE-754 doubles;
  the embedding substitutes exact-integer stand-ins so that the listing
  operation is total, but those stand-ins provably diverge from the
  program's floating-point results near unit boundaries, so no property of
  the rendered size strings is claimed here.
-/

namespace DataEgress

/-- JS value held by a date field: either a proper ISO-8601 string (the
result of calling `toISOString()`) or the un-invoked function reference
produced by reading `new Date().toISOString` without parentheses. -/
inductive JsTimeVal where
  | isoString (t : String)
  | funcRef
  deriving DecidableEq

/-- ASCII upper-casing over the character list, modelling
`String.prototype.toUpperCase` for the ASCII status strings used by the
service. -/
def jsToUpper (s : String) : String := ⟨s.data.map Char.toUpper⟩

/-- Splitting a character list at a separator, keeping empty chunks, as
`String.prototype.split` does (`''.split('/')` is `['']`). -/
def splitChunks (sep : Char) : List Char → List (List Char)
  | [] => [[]]
  | c :: cs =>
    let rest := splitChunks sep cs
    if c = sep then [] :: rest
    else
      match rest with
      | [] => [[c]]
      | chunk :: more => (c :: chunk) :: more

/-- JS `key.split('/')`. -/
def jsSplitSlash (s : String) : List String := (splitChunks '/' s.data).map String.mk

/-- JS test that `s` begins with `pre`, used for S3 listing/clearing under a
key path. -/
def jsStartsWith (s pre : String) : Bool := pre.data.isPrefixOf s.data

/-- Feature flag check from lines 103/192/280/367: the setting must be a
truthy string whose upper-casing is `'TRUE'`
(`!enableEgressStore || enableEgressStore.toUpperCase() !== 'TRUE'` rejects). -/
def featureEnabled (v : Option String) : Bool :=
  match v with
  | none => false
  | some s => !(s == "") && jsToUpper s == "TRUE"

/-! ## Bucket-policy layer

Modelled from the spec: the helpers imported on lines 21-29
(`getStatementParamsFn`, `listStatementParamsFn`, `putStatementParamsFn`,
`updateS3BucketPolicy`, `addAccountToStatement`, `getRevisedS3Statements`,
`removeAccountFromStatement`) live in `base-raas-services/lib/helpers/utils`,
which is not among the provided sources.  Section 4.2 of the design document
specifies them: each statement is keyed by the store (its resource path) and
one action kind (get-object / put-object / list-bucket); `grant` locates the
statement for each enabled kind, synthesizes an empty one when absent, and
adds the account to its principal set (no-op when present); `revoke` removes
the account from each of the three statements and drops a statement whose
principal set becomes empty.  The statement id and resource ARN are derived
deterministically from the (store, kind) key, so the model keys statements by
that pair directly. -/

/-- Action kind of a policy statement (get-object / put-object / list-bucket). -/
inductive ActionKind where
  | get
  | put
  | list
  deriving DecidableEq

/-- Modelled from the spec: one statement of the shared bucket policy,
keyed by the store and action kind, carrying its ordered principal set. -/
structure PolicyStatement where
  storeId : String
  kind : ActionKind
  principals : List String
  deriving DecidableEq

/-- The shared bucket policy document: an ordered sequence of statements. -/
abbrev PolicyDoc := List PolicyStatement

/-- Statement is keyed by this (store, action-kind) pair. -/
def stmtMatches (storeId : String) (kind : ActionKind) (st : PolicyStatement) : Prop :=
  st.storeId = storeId ∧ st.kind = kind

instance (storeId : String) (kind : ActionKind) : DecidablePred (stmtMatches storeId kind) :=
  fun st => by unfold stmtMatches; infer_instance

/-- Modelled from the spec: add the account to a statement's principal set;
adding an already-present principal is a no-op. -/
def addPrincipalIfAbsent (acct : String) (st : PolicyStatement) : PolicyStatement :=
  { st with principals := if acct ∈ st.principals then st.principals else st.principals ++ [acct] }

/-- Modelled from the spec: remove the account from a statement's principal
set. -/
def removePrincipal (acct : String) (st : PolicyStatement) : PolicyStatement :=
  { st with principals := st.principals.filter fun p => p != acct }

/-- Per-statement effect of a grant for the (store, kind) key. -/
def applyAdd (storeId : String) (kind : ActionKind) (acct : String)
    (st : PolicyStatement) : PolicyStatement :=
  if stmtMatches storeId kind st then addPrincipalIfAbsent acct st else st

/-- Per-statement effect of a revoke for the (store, kind) key. -/
def applyRemove (storeId : String) (kind : ActionKind) (acct : String)
    (st : PolicyStatement) : PolicyStatement :=
  if stmtMatches storeId kind st then removePrincipal acct st else st

/-- A revoke drops the statement of its own key once its principal set is
empty; every other statement is kept. -/
def keepNonEmpty (storeId : String) (kind : ActionKind) (st : PolicyStatement) : Bool :=
  !decide (stmtMatches storeId kind st ∧ st.principals = [])

/-- Modelled from the spec: revise the document for one action kind of a
grant — locate the statement keyed by (store, kind), synthesize one holding
just this account when absent, otherwise add the account to its principal
set. -/
def addAccountStatementForKind (doc : PolicyDoc) (storeId : String) (kind : ActionKind)
    (acct : String) : PolicyDoc :=
  if ∃ st ∈ doc, stmtMatches storeId kind st then doc.map (applyAdd storeId kind acct)
  else doc ++ [{ storeId := storeId, kind := kind, principals := [acct] }]

/-- Modelled from the spec: revise the document for one action kind of a
revoke — remove the account from the statement keyed by (store, kind) and
drop the statement when its principal set becomes empty. -/
def removeAccountStatementForKind (doc : PolicyDoc) (storeId : String) (kind : ActionKind)
    (acct : String) : PolicyDoc :=
  (doc.map (applyRemove storeId kind acct)).filter (keepNonEmpty storeId kind)

/-- Statement-parameter selection of `addEgressStoreBucketPolicy`
(lines 489-498): read permission contributes the get statement, write the put
statement, and either one the list statement. -/
def statementParamKinds (readPerm writePerm : Bool) : List ActionKind :=
  (if readPerm then [ActionKind.get] else []) ++
    (if writePerm then [ActionKind.put] else []) ++
    (if readPerm || writePerm then [ActionKind.list] else [])

/-- Grant of `addEgressStoreBucketPolicy` (lines 486-513): revise the shared
policy document for every enabled action kind, adding the member account. -/
def addEgressStoreBucketPolicy (doc : PolicyDoc) (storeId : String)
    (readPerm writePerm : Bool) (acct : String) : PolicyDoc :=
  (statementParamKinds readPerm writePerm).foldl
    (fun d k => addAccountStatementForKind d storeId k acct) doc

/-- Revoke of `removeEgressStoreBucketPolicy` (lines 515-531): revise the
shared policy document for all three action kinds, removing the member
account. -/
def removeEgressStoreBucketPolicy (doc : PolicyDoc) (storeId : String)
    (acct : String) : PolicyDoc :=
  [ActionKind.get, ActionKind.put, ActionKind.list].foldl
    (fun d k => removeAccountStatementForKind d storeId k acct) doc

/-! ### Policy lemmas -/

lemma applyAdd_storeId (s : String) (k : ActionKind) (a : String) (st : PolicyStatement) :
    (applyAdd s k a st).storeId = st.storeId := by
  by_cases h : stmtMatches s k st <;> simp [applyAdd, h, addPrincipalIfAbsent]

lemma applyAdd_kind (s : String) (k : ActionKind) (a : String) (st : PolicyStatement) :
    (applyAdd s k a st).kind = st.kind := by
  by_cases h : stmtMatches s k st <;> simp [applyAdd, h, addPrincipalIfAbsent]

lemma applyRemove_storeId (s : String) (k : ActionKind) (a : String) (st : PolicyStatement) :
    (applyRemove s k a st).storeId = st.storeId := by
  by_cases h : stmtMatches s k st <;> simp [applyRemove, h, removePrincipal]

lemma applyRemove_kind (s : String) (k : ActionKind) (a : String) (st : PolicyStatement) :
    (applyRemove s k a st).kind = st.kind := by
  by_cases h : stmtMatches s k st <;> simp [applyRemove, h, removePrincipal]

lemma stmtMatches_applyAdd {s2 : String} {k2 : ActionKind} {a : String}
    {s : String} {k : ActionKind} {st : PolicyStatement} :
    stmtMatches s k (applyAdd s2 k2 a st) ↔ stmtMatches s k st := by
  unfold stmtMatches
  rw [applyAdd_storeId, applyAdd_kind]

lemma stmtMatches_applyRemove {s2 : String} {k2 : ActionKind} {a : String}
    {s : String} {k : ActionKind} {st : PolicyStatement} :
    stmtMatches s k (applyRemove s2 k2 a st) ↔ stmtMatches s k st := by
  unfold stmtMatches
  rw [applyRemove_storeId, applyRemove_kind]

lemma applyAdd_of_not {s : String} {k : ActionKind} {a : String} {st : PolicyStatement}
    (h : ¬ stmtMatches s k st) : applyAdd s k a st = st := if_neg h

lemma applyRemove_of_not {s : String} {k : ActionKind} {a : String} {st : PolicyStatement}
    (h : ¬ stmtMatches s k st) : applyRemove s k a st = st := if_neg h

lemma applyAdd_of_mem {s : String} {k : ActionKind} {a : String} {st : PolicyStatement}
    (h : stmtMatches s k st) (hm : a ∈ st.principals) : applyAdd s k a st = st := by
  unfold applyAdd addPrincipalIfAbsent
  rw [if_pos h, if_pos hm]

lemma applyAdd_of_not_mem {s : String} {k : ActionKind} {a : String} {st : PolicyStatement}
    (h : stmtMatches s k st) (hm : a ∉ st.principals) :
    applyAdd s k a st = { st with principals := st.principals ++ [a] } := by
  unfold applyAdd addPrincipalIfAbsent
  rw [if_pos h, if_neg hm]

lemma mem_applyAdd_principals {s : String} {k : ActionKind} {a : String} {st : PolicyStatement}
    (h : stmtMatches s k st) : a ∈ (applyAdd s k a st).principals := by
  unfold applyAdd addPrincipalIfAbsent
  rw [if_pos h]
  by_cases hm : a ∈ st.principals <;> simp [hm]

lemma keepNonEmpty_of_not {s : String} {k : ActionKind} {st : PolicyStatement}
    (h : ¬ stmtMatches s k st) : keepNonEmpty s k st = true := by
  simp [keepNonEmpty, h]

lemma keepNonEmpty_of_ne {s : String} {k : ActionKind} {st : PolicyStatement}
    (h : st.principals ≠ []) : keepNonEmpty s k st = true := by
  simp [keepNonEmpty, h]

lemma filter_map_eq_self {α : Type} (l : List α) (f : α → α) (p : α → Bool)
    (h : ∀ x ∈ l, f x = x ∧ p x = true) : (l.map f).filter p = l := by
  induction l with
  | nil => rfl
  | cons a t ih =>
    have ha := h a (List.mem_cons_self a t)
    rw [List.map_cons, List.filter_cons, ha.1, ha.2, if_pos rfl,
      ih (fun x hx => h x (List.mem_cons_of_mem a hx))]

lemma map_filter_swap {α : Type} (l : List α) (f : α → α) (p : α → Bool)
    (h : ∀ x, p (f x) = p x) : (l.map f).filter p = (l.filter p).map f := by
  induction l with
  | nil => rfl
  | cons a t ih =>
    rw [List.map_cons, List.filter_cons, List.filter_cons, h a]
    by_cases hp : p a = true
    · rw [hp, if_pos rfl, if_pos rfl, List.map_cons, ih]
    · rw [eq_false_of_ne_true hp, if_neg (by simp), if_neg (by simp), ih]

/-- After a grant, the (store, kind) statement exists and every statement of
that key lists the account. -/
def EstKey (doc : PolicyDoc) (storeId : String) (kind : ActionKind) (acct : String) : Prop :=
  (∃ st ∈ doc, stmtMatches storeId kind st) ∧
    ∀ st ∈ doc, stmtMatches storeId kind st → acct ∈ st.principals

lemma estKey_add (doc : PolicyDoc) (s : String) (k : ActionKind) (a : String) :
    EstKey (addAccountStatementForKind doc s k a) s k a := by
  unfold addAccountStatementForKind
  by_cases h : ∃ st ∈ doc, stmtMatches s k st
  · rw [if_pos h]
    obtain ⟨st0, hmem, hkey⟩ := h
    refine ⟨⟨applyAdd s k a st0, List.mem_map_of_mem _ hmem, stmtMatches_applyAdd.mpr hkey⟩, ?_⟩
    intro st hst hm
    obtain ⟨x, hx, rfl⟩ := List.mem_map.mp hst
    exact mem_applyAdd_principals (stmtMatches_applyAdd.mp hm)
  · rw [if_neg h]
    refine ⟨⟨⟨s, k, [a]⟩, by simp, ⟨rfl, rfl⟩⟩, ?_⟩
    intro st hst hm
    rcases List.mem_append.mp hst with h1 | h1
    · exact absurd ⟨st, h1, hm⟩ h
    · simp only [List.mem_singleton] at h1
      subst h1
      simp

lemma estKey_add_preserved {doc : PolicyDoc} {s : String} {k : ActionKind} {a : String}
    (s2 : String) (k2 : ActionKind) (h : EstKey doc s k a) :
    EstKey (addAccountStatementForKind doc s2 k2 a) s k a := by
  by_cases heq : s = s2 ∧ k = k2
  · obtain ⟨h1, h2⟩ := heq
    subst h1
    subst h2
    exact estKey_add doc s k a
  · unfold addAccountStatementForKind
    obtain ⟨⟨st0, h0, hk0⟩, hall⟩ := h
    by_cases hex : ∃ st ∈ doc, stmtMatches s2 k2 st
    · rw [if_pos hex]
      have hne0 : ¬ stmtMatches s2 k2 st0 := by
        intro hc
        exact heq ⟨hk0.1.symm.trans hc.1, hk0.2.symm.trans hc.2⟩
      refine ⟨⟨applyAdd s2 k2 a st0, List.mem_map_of_mem _ h0, stmtMatches_applyAdd.mpr hk0⟩, ?_⟩
      intro st hst hm
      obtain ⟨x, hx, rfl⟩ := List.mem_map.mp hst
      have hmx : stmtMatches s k x := stmtMatches_applyAdd.mp hm
      have hx2 : ¬ stmtMatches s2 k2 x := by
        intro hc
        exact heq ⟨hmx.1.symm.trans hc.1, hmx.2.symm.trans hc.2⟩
      rw [applyAdd_of_not hx2]
      exact hall x hx hmx
    · rw [if_neg hex]
      refine ⟨⟨st0, List.mem_append_left _ h0, hk0⟩, ?_⟩
      intro st hst hm
      rcases List.mem_append.mp hst with h1 | h1
      · exact hall st h1 hm
      · simp only [List.mem_singleton] at h1
        subst h1
        simp

lemma add_noop {doc : PolicyDoc} {s : String} {k : ActionKind} {a : String}
    (h : EstKey doc s k a) : addAccountStatementForKind doc s k a = doc := by
  unfold addAccountStatementForKind
  rw [if_pos h.1]
  have hid : ∀ st ∈ doc, applyAdd s k a st = id st := by
    intro st hst
    by_cases hm : stmtMatches s k st
    · exact applyAdd_of_mem hm (h.2 st hst hm)
    · exact applyAdd_of_not hm
  rw [List.map_congr_left hid, List.map_id]

lemma estKey_foldl_preserved {s : String} {k : ActionKind} {a : String}
    (ks : List ActionKind) (doc : PolicyDoc) (h : EstKey doc s k a) :
    EstKey (ks.foldl (fun d k2 => addAccountStatementForKind d s k2 a) doc) s k a := by
  induction ks generalizing doc with
  | nil => exact h
  | cons k0 ks ih =>
    rw [List.foldl_cons]
    exact ih _ (estKey_add_preserved s k0 h)

lemma estKey_foldl_mem {s : String} {a : String} {k : ActionKind} (ks : List ActionKind)
    (doc : PolicyDoc) (hk : k ∈ ks) :
    EstKey (ks.foldl (fun d k2 => addAccountStatementForKind d s k2 a) doc) s k a := by
  induction ks generalizing doc with
  | nil => cases hk
  | cons k0 ks ih =>
    rw [List.foldl_cons]
    rcases List.mem_cons.mp hk with rfl | hmem
    · exact estKey_foldl_preserved ks _ (estKey_add doc s k a)
    · exact ih _ hmem

lemma foldl_add_noop {s : String} {a : String} (ks : List ActionKind) (doc : PolicyDoc)
    (h : ∀ k ∈ ks, EstKey doc s k a) :
    ks.foldl (fun d k2 => addAccountStatementForKind d s k2 a) doc = doc := by
  induction ks with
  | nil => rfl
  | cons k0 ks ih =>
    rw [List.foldl_cons, add_noop (h k0 (List.mem_cons_self k0 ks))]
    exact ih (fun k hk => h k (List.mem_cons_of_mem k0 hk))

/-- C3: granting the same store and account twice yields the document of the
first grant — adding an already-present principal is a no-op, so the second
pass revises nothing. -/
theorem addEgressStoreBucketPolicy_idempotent (doc : PolicyDoc) (storeId : String)
    (readPerm writePerm : Bool) (acct : String) :
    addEgressStoreBucketPolicy (addEgressStoreBucketPolicy doc storeId readPerm writePerm acct)
        storeId readPerm writePerm acct =
      addEgressStoreBucketPolicy doc storeId readPerm writePerm acct := by
  unfold addEgressStoreBucketPolicy
  exact foldl_add_noop _ _ (fun k hk => estKey_foldl_mem _ _ hk)

lemma remove_add_roundtrip {doc : PolicyDoc} {s : String} {k : ActionKind} {a : String}
    (h : ∀ st ∈ doc, stmtMatches s k st → a ∉ st.principals ∧ st.principals ≠ []) :
    removeAccountStatementForKind (addAccountStatementForKind doc s k a) s k a = doc := by
  unfold addAccountStatementForKind removeAccountStatementForKind
  by_cases hex : ∃ st ∈ doc, stmtMatches s k st
  · rw [if_pos hex, List.map_map]
    apply filter_map_eq_self
    intro st hst
    by_cases hm : stmtMatches s k st
    · obtain ⟨hna, hne⟩ := h st hst hm
      have hadd : applyAdd s k a st = { st with principals := st.principals ++ [a] } :=
        applyAdd_of_not_mem hm hna
      have hmm : stmtMatches s k ({ st with principals := st.principals ++ [a] }) := hm
      have hfilter : (st.principals ++ [a]).filter (fun p => p != a) = st.principals := by
        rw [List.filter_append]
        have h1 : st.principals.filter (fun p => p != a) = st.principals :=
          List.filter_eq_self.mpr (fun b hb => by
            simp only [bne_iff_ne, ne_eq, decide_eq_true_eq]
            intro hba
            exact hna (hba ▸ hb))
        have h2 : ([a].filter fun p => p != a) = [] := by simp
        rw [h1, h2, List.append_nil]
      constructor
      · show applyRemove s k a (applyAdd s k a st) = st
        rw [hadd]
        unfold applyRemove removePrincipal
        rw [if_pos hmm]
        simp only
        rw [hfilter]
      · exact keepNonEmpty_of_ne hne
    · have hadd : applyAdd s k a st = st := applyAdd_of_not hm
      constructor
      · show applyRemove s k a (applyAdd s k a st) = st
        rw [hadd, applyRemove_of_not hm]
      · exact keepNonEmpty_of_not hm
  · rw [if_neg hex, List.map_append, List.filter_append]
    have h1 : (doc.map (applyRemove s k a)).filter (keepNonEmpty s k) = doc := by
      apply filter_map_eq_self
      intro st hst
      have hm : ¬ stmtMatches s k st := fun hc => hex ⟨st, hst, hc⟩
      exact ⟨applyRemove_of_not hm, keepNonEmpty_of_not hm⟩
    have h2 : (([{ storeId := s, kind := k, principals := [a] }] : PolicyDoc).map
        (applyRemove s k a)).filter (keepNonEmpty s k) = [] := by
      simp [applyRemove, removePrincipal, keepNonEmpty, stmtMatches]
    rw [h1, h2, List.append_nil]

lemma remove_add_comm (s a : String) (k1 k2 : ActionKind) (doc : PolicyDoc) (hne : k1 ≠ k2) :
    removeAccountStatementForKind (addAccountStatementForKind doc s k2 a) s k1 a =
      addAccountStatementForKind (removeAccountStatementForKind doc s k1 a) s k2 a := by
  have hdisj : ∀ st : PolicyStatement, stmtMatches s k1 st → stmtMatches s k2 st → False :=
    fun st h1 h2 => hne (h1.2.symm.trans h2.2)
  have hexiff : (∃ st ∈ removeAccountStatementForKind doc s k1 a, stmtMatches s k2 st)
      ↔ (∃ st ∈ doc, stmtMatches s k2 st) := by
    unfold removeAccountStatementForKind
    constructor
    · rintro ⟨st, hst, hm⟩
      rw [List.mem_filter] at hst
      obtain ⟨x, hx, rfl⟩ := List.mem_map.mp hst.1
      exact ⟨x, hx, stmtMatches_applyRemove.mp hm⟩
    · rintro ⟨st, hst, hm⟩
      have hne1 : ¬ stmtMatches s k1 st := fun hc => hdisj st hc hm
      have e1 : applyRemove s k1 a st = st := applyRemove_of_not hne1
      refine ⟨st, List.mem_filter.mpr ⟨e1 ▸ List.mem_map_of_mem _ hst, keepNonEmpty_of_not hne1⟩, hm⟩
  by_cases hex : ∃ st ∈ doc, stmtMatches s k2 st
  · have hex2 : ∃ st ∈ removeAccountStatementForKind doc s k1 a, stmtMatches s k2 st :=
      hexiff.mpr hex
    unfold addAccountStatementForKind
    rw [if_pos hex, if_pos hex2]
    unfold removeAccountStatementForKind
    have hcomm : ∀ st, applyRemove s k1 a (applyAdd s k2 a st) =
        applyAdd s k2 a (applyRemove s k1 a st) := by
      intro st
      by_cases h1 : stmtMatches s k1 st
      · have h2 : ¬ stmtMatches s k2 st := fun hc => hdisj st h1 hc
        rw [applyAdd_of_not h2, applyAdd_of_not (fun hc => h2 (stmtMatches_applyRemove.mp hc))]
      · by_cases h2 : stmtMatches s k2 st
        · rw [applyRemove_of_not h1, applyRemove_of_not (fun hc => h1 (stmtMatches_applyAdd.mp hc))]
        · rw [applyAdd_of_not h2, applyRemove_of_not h1, applyAdd_of_not h2]
    have hkeep : ∀ y, keepNonEmpty s k1 (applyAdd s k2 a y) = keepNonEmpty s k1 y := by
      intro y
      by_cases h1 : stmtMatches s k1 y
      · rw [applyAdd_of_not (fun hc => hdisj y h1 hc)]
      · rw [keepNonEmpty_of_not h1,
          keepNonEmpty_of_not (fun hc => h1 (stmtMatches_applyAdd.mp hc))]
    have hfun : applyRemove s k1 a ∘ applyAdd s k2 a = fun st =>
        applyAdd s k2 a (applyRemove s k1 a st) := funext (fun st => hcomm st)
    rw [List.map_map, hfun]
    have hfun2 : (fun st => applyAdd s k2 a (applyRemove s k1 a st)) =
        applyAdd s k2 a ∘ applyRemove s k1 a := rfl
    rw [hfun2, ← List.map_map, map_filter_swap _ _ _ hkeep]
  · have hex2 : ¬ ∃ st ∈ removeAccountStatementForKind doc s k1 a, stmtMatches s k2 st :=
      fun hc => hex (hexiff.mp hc)
    unfold addAccountStatementForKind
    rw [if_neg hex, if_neg hex2]
    unfold removeAccountStatementForKind
    rw [List.map_append, List.filter_append]
    have hnew1 : ¬ stmtMatches s k1 ({ storeId := s, kind := k2, principals := [a] }) :=
      fun hc => hne (hc.2.symm ▸ rfl)
    have h2 : (([{ storeId := s, kind := k2, principals := [a] }] : PolicyDoc).map
        (applyRemove s k1 a)).filter (keepNonEmpty s k1) =
        [{ storeId := s, kind := k2, principals := [a] }] := by
      rw [List.map_singleton, applyRemove_of_not hnew1, List.filter_singleton,
        keepNonEmpty_of_not hnew1]
      rfl
    rw [h2]

/-- C2, corrected: a grant followed by a revoke of the same store and account
restores the document byte-for-byte, provided the account was not already a
principal of any of the store's statements and none of the store's statements
had an empty principal set (the spec's own well-formedness invariant). -/
theorem grant_revoke_restores (doc : PolicyDoc) (storeId acct : String)
    (h : ∀ st ∈ doc, st.storeId = storeId → acct ∉ st.principals ∧ st.principals ≠ []) :
    removeEgressStoreBucketPolicy (addEgressStoreBucketPolicy doc storeId true true acct)
        storeId acct = doc := by
  have hh : ∀ k : ActionKind, ∀ st ∈ doc,
      stmtMatches storeId k st → acct ∉ st.principals ∧ st.principals ≠ [] :=
    fun k st hst hm => h st hst hm.1
  have hkinds : statementParamKinds true true =
      [ActionKind.get, ActionKind.put, ActionKind.list] := rfl
  unfold addEgressStoreBucketPolicy removeEgressStoreBucketPolicy
  rw [hkinds]
  simp only [List.foldl_cons, List.foldl_nil]
  rw [remove_add_comm storeId acct ActionKind.get ActionKind.list _ (by decide),
    remove_add_comm storeId acct ActionKind.get ActionKind.put _ (by decide),
    remove_add_roundtrip (hh ActionKind.get),
    remove_add_comm storeId acct ActionKind.put ActionKind.list _ (by decide),
    remove_add_roundtrip (hh ActionKind.put),
    remove_add_roundtrip (hh ActionKind.list)]

/-- C2 counterexample: when the account is already the sole principal of the
store's get statement, the grant is a no-op on that statement but the revoke
removes the account and drops the statement, so the round trip does not
restore the pre-grant document. -/
theorem grant_revoke_restores_counterexample :
    removeEgressStoreBucketPolicy
        (addEgressStoreBucketPolicy [⟨"store1", ActionKind.get, ["acct1"]⟩]
          "store1" true true "acct1")
        "store1" "acct1" ≠ [⟨"store1", ActionKind.get, ["acct1"]⟩] := by
  decide

/-- C2 witness: the corrected round trip evaluated on a concrete document
holding one statement of another store and one non-empty statement of this
store that does not list the account. -/
theorem grant_revoke_restores_witness :
    (∀ st ∈ ([⟨"other", ActionKind.get, ["acct2"]⟩,
        ⟨"store1", ActionKind.put, ["acct2"]⟩] : PolicyDoc),
      st.storeId = "store1" → "acct1" ∉ st.principals ∧ st.principals ≠ []) ∧
    removeEgressStoreBucketPolicy
        (addEgressStoreBucketPolicy
          [⟨"other", ActionKind.get, ["acct2"]⟩, ⟨"store1", ActionKind.put, ["acct2"]⟩]
          "store1" true true "acct1")
        "store1" "acct1" =
      [⟨"other", ActionKind.get, ["acct2"]⟩, ⟨"store1", ActionKind.put, ["acct2"]⟩] :=
  ⟨by decide, grant_revoke_restores _ _ _ (by decide)⟩

/-! ## Egress-store lifecycle layer

Direct embedding of `data-egress-service.js`.  DynamoDB is the list of table
rows, S3 listings are lists of objects of the egress-store bucket, and SNS is
the list of successfully published messages.  Each method returns the thrown
error or the JS return value, paired with the state holding every side effect
performed before the throw. -/

def PROCESSING_STATUS_CODE : String := "PROCESSING"

def PROCESSED_STATUS_CODE : String := "PROCESSED"

def TERMINATED_STATUS_CODE : String := "TERMINATED"

def CREATED_STATUS_CODE : String := "CREATED"

def PENDING_STATUS_CODE : String := "PENDING"

/-- Row of the `dbEgressStore` table, with the fields written by
`createEgressStore` (lines 122-137). -/
structure EgressStoreRecord where
  id : String
  egressStoreName : String
  createdAt : JsTimeVal
  createdBy : String
  workspaceId : String
  projectId : String
  s3BucketName : String
  s3BucketPath : String
  status : String
  updatedBy : String
  updatedAt : JsTimeVal
  ver : Nat
  isAbleToSubmitEgressRequest : Bool
  egressStoreObjectListLocation : Option String
  deriving DecidableEq

/-- Object entry returned by `s3Service.listAllObjects`: key, byte size and
last-modified timestamp (epoch milliseconds, the numeric value JS dates
compare by). -/
structure S3Object where
  Key : String
  Size : Nat
  LastModified : Nat
  deriving DecidableEq

/-- Message published to SNS by `notifySNS` (lines 399-414). -/
structure SnsMessage where
  egressStoreObjectListLocation : String
  id : String
  egress_store_id : String
  egress_store_name : String
  created_at : JsTimeVal
  created_by : String
  workspace_id : String
  project_id : String
  s3_bucketname : String
  s3_bucketpath : String
  status : String
  updated_by : String
  updated_at : JsTimeVal
  ver : Nat
  deriving DecidableEq

/-- Settings consumed by the embedded methods (`settingKeys`); the SNS topic
ARN and KMS alias only parameterize external calls and are omitted. -/
structure Settings where
  enableEgressStore : Option String
  egressStoreBucketName : String
  egressNotificationBucketName : String
  deriving DecidableEq

/-- Caller identity: `principalIdentifier.uid` plus the `isAdmin` verdict of
the authorization helper. -/
structure RequestContext where
  uid : String
  isAdmin : Bool
  deriving DecidableEq

/-- Fields of the `environment` argument of `createEgressStore` that the
method reads. -/
structure EnvironmentInput where
  id : String
  name : String
  createdBy : String
  projectId : String
  deriving DecidableEq

/-- The `envPermission` sub-object of the egress-store descriptor. -/
structure EnvPermission where
  read : Bool
  write : Bool
  deriving DecidableEq

/-- Caller-facing descriptor built by `createEgressStore` (lines 158-178).
The source names its fifth field `prefix`; it is called `path` here. -/
structure EgressStoreDescriptor where
  id : String
  readable : Bool
  writeable : Bool
  kmsArn : Option String
  bucket : String
  path : String
  envPermission : EnvPermission
  status : String
  createdBy : String
  workspaceId : String
  projectId : String
  resources : List String
  deriving DecidableEq

/-- Errors raised by the service, one constructor per throw site.
* `featureDisabled`: `boom.forbidden('... feature is disabled')`
  (lines 104, 193, 281, 368) — spec kind FeatureDisabled.
* `multipleRecords`: `boom.internalError` in `getEgressStoreInfo` (line 91) —
  spec kind InternalInvariantViolation.
* `notAuthorized`: `boom.forbidden('You are not authorized ...')`
  (lines 206, 287, 380) — spec kind Forbidden.
* `conflictProcessing`: `boom.forbidden('... is still in processing ...')`
  (line 218) — the spec's Conflict on terminating a PROCESSING store.
* `alreadyExists`: `boom.badRequest('... already exists')` (line 151) —
  spec kind AlreadyExists.
* `updateFailed`: `boom.badRequest('... got updating error')` in
  `lockAndUpdate` (line 552), raised when the conditional update rejects.
* `invalidState`: `boom.badRequest('... is not ready for egress ...')`
  (line 373) — the spec's InvalidState on submitting an ineligible store.
* `publishFailed`: `boom.badRequest('Unable to publish message ...')`
  (line 420) — spec kind PublishFailed.
* `nullDereference f`: the JS TypeError raised by reading property `f` of a
  `null` record lookup. -/
inductive EgressError where
  | featureDisabled
  | multipleRecords
  | notAuthorized
  | conflictProcessing
  | alreadyExists
  | updateFailed
  | invalidState
  | publishFailed
  | nullDereference (field : String)
  deriving DecidableEq

/-- External state the service reads and mutates: the `dbEgressStore` table,
the egress-store bucket's objects, the folder markers written by
`createPath`, the manifest objects written to the egress-notification bucket
(key with the snapshotted listing), the shared bucket policy, and the
messages accepted by SNS. -/
structure SysState where
  egressTable : List EgressStoreRecord
  s3Objects : List S3Object
  createdPaths : List String
  notifObjects : List (String × List S3Object)
  bucketPolicy : PolicyDoc
  publishedMessages : List SnsMessage
  deriving DecidableEq

/-- Lines 72-97: scan the table (limit 1000), filter by `workspaceId`;
no row is `null`, several rows is an internal error, one row is returned. -/
def getEgressStoreInfo (w : SysState) (environmentId : String) :
    Except EgressError (Option EgressStoreRecord) :=
  match (w.egressTable.take 1000).filter (fun r => r.workspaceId == environmentId) with
  | [] => .ok none
  | [r] => .ok (some r)
  | _ => .error .multipleRecords

/-- Lines 540-556: under the record lock, write the item with condition
`attribute_exists(id)`; the conditional rejection becomes a bad-request
error. -/
def lockAndUpdate (w : SysState) (dbKey : String) (dbObject : EgressStoreRecord) :
    Except EgressError Unit × SysState :=
  if ∃ r ∈ w.egressTable, r.id = dbKey then
    (.ok (),
      { w with egressTable := w.egressTable.map fun r => if r.id = dbKey then dbObject else r })
  else (.error .updateFailed, w)

/-- Lines 99-187, `createEgressStore`: feature gate, storage path creation,
conditional insert (`attribute_not_exists(id)`) of the CREATED record, then
the policy grant for the member account.  Input validation, the KMS lookup
and the account resolution are external collaborators passed as arguments.
Note line 121: `const creationTime = new Date().toISOString;` reads the
method without calling it, so the record's date fields hold `funcRef`. -/
def createEgressStore (st : Settings) (rc : RequestContext) (env : EnvironmentInput)
    (memberAccountId : String) (kmsArn : String) (w : SysState) :
    Except EgressError EgressStoreDescriptor × SysState :=
  if featureEnabled st.enableEgressStore = true then
    let folderName := env.id ++ "/"
    let w1 : SysState := { w with createdPaths := w.createdPaths ++ [folderName] }
    let creationTime : JsTimeVal := .funcRef
    let dbObject : EgressStoreRecord := {
      id := env.id
      egressStoreName := env.name ++ "-egress-store"
      createdAt := creationTime
      createdBy := env.createdBy
      workspaceId := env.id
      projectId := env.projectId
      s3BucketName := st.egressStoreBucketName
      s3BucketPath := folderName
      status := CREATED_STATUS_CODE
      updatedBy := rc.uid
      updatedAt := creationTime
      ver := 0
      isAbleToSubmitEgressRequest := false
      egressStoreObjectListLocation := none }
    if ∃ r ∈ w1.egressTable, r.id = env.id then (.error .alreadyExists, w1)
    else
      let w2 : SysState := { w1 with egressTable := w1.egressTable ++ [dbObject] }
      let egressStore : EgressStoreDescriptor := {
        id := "egress-store-" ++ env.id
        readable := true
        writeable := true
        kmsArn := some kmsArn
        bucket := st.egressStoreBucketName
        path := folderName
        envPermission := { read := true, write := true }
        status := "reachable"
        createdBy := env.createdBy
        workspaceId := env.id
        projectId := env.projectId
        resources := ["arn:aws:s3:::" ++ st.egressStoreBucketName ++ "/" ++ env.id ++ "/"] }
      let w3 : SysState := { w2 with bucketPolicy :=
        (addEgressStoreBucketPolicy w2.bucketPolicy egressStore.id
          egressStore.envPermission.read egressStore.envPermission.write memberAccountId) }
      (.ok egressStore, w3)
  else (.error .featureDisabled, w)

/-- Lines 189-276, `terminateEgressStore`: feature gate; `null` lookup is an
audited no-op returning `null`; owner-or-admin check; then the transition
rule on the (upper-cased) status — PROCESSING rejects, PROCESSED or
untouched-CREATED clears the storage path, persists the TERMINATED record
and revokes the member account from the bucket policy, anything else falls
through returning the record unchanged. -/
def terminateEgressStore (st : Settings) (rc : RequestContext) (now : String)
    (memberAccountId : String) (environmentId : String) (w : SysState) :
    Except EgressError (Option EgressStoreRecord) × SysState :=
  if featureEnabled st.enableEgressStore = true then
    match getEgressStoreInfo w environmentId with
    | .error e => (.error e, w)
    | .ok none => (.ok none, w)
    | .ok (some info) =>
      if rc.isAdmin = true ∨ info.createdBy = rc.uid then
        if jsToUpper info.status = PROCESSING_STATUS_CODE then (.error .conflictProcessing, w)
        else if jsToUpper info.status = PROCESSED_STATUS_CODE ∨
            (jsToUpper info.status = CREATED_STATUS_CODE ∧
              info.isAbleToSubmitEgressRequest = false) then
          let w1 : SysState := { w with s3Objects :=
            (w.s3Objects.filter fun o => !(jsStartsWith o.Key info.s3BucketPath)) }
          let info2 : EgressStoreRecord := { info with
            status := TERMINATED_STATUS_CODE
            updatedBy := rc.uid
            updatedAt := .isoString now
            isAbleToSubmitEgressRequest := false }
          match lockAndUpdate w1 info.id info2 with
          | (.error e, w2) => (.error e, w2)
          | (.ok _, w2) =>
            (.ok (some info2),
              { w2 with bucketPolicy :=
                (removeEgressStoreBucketPolicy w2.bucketPolicy
                  ("egress-store-" ++ environmentId) memberAccountId) })
        else (.ok (some info), w)
      else (.error .notAuthorized, w)
  else (.error .featureDisabled, w)

/-- Exact-rational stand-in for `Math.round(num / den)` (round half up).  The
source rounds an IEEE-754 double quotient of a double-converted numerator, so
for inputs at or above `2 ^ 53` the two diverge (at `35 * 2 ^ 49 - 1` the
program rounds the float quotient `17.5` to `18` while this exact version
gives `17`); it is a placeholder for rendering only, and nothing is claimed
about it. -/
def jsRound (num den : Nat) : Nat := (2 * num + den) / (2 * den)

/-- Exact-integer stand-in for the index of lines 322-323,
`parseInt(Math.floor(Math.log(bytes) / Math.log(1024)), 10)` capped at `5`.
The source computes the ratio in IEEE-754 doubles, whose rounding moves the
boundary below the exact power (at `1024 ^ 5 - 1` the double ratio is exactly
`5.0`, so the program selects index 5 where this exact version selects 4);
it is a placeholder so that `getEgressStore` is total, and nothing is claimed
about it. -/
def sizeUnitIndex (bytes : Nat) : Nat :=
  if bytes < 1024 then 0
  else if bytes < 1024 ^ 2 then 1
  else if bytes < 1024 ^ 3 then 2
  else if bytes < 1024 ^ 4 then 3
  else if bytes < 1024 ^ 5 then 4
  else 5

/-- Lines 319-325, `bytesToSize`: `0` renders as `'0 Byte'`, otherwise the
value is scaled by the selected power of 1024, rounded
(`Math.round(bytes / 1024 ** i, 2)` — the second argument is ignored by JS),
and suffixed with the unit.  Built on the exact-arithmetic stand-ins
`sizeUnitIndex` and `jsRound`, it diverges from the program's IEEE-754
floating-point rendering near unit boundaries (the program renders
`1024 ^ 5 - 1` as `'1 PB'`, this version as `'1024 TB'`), so the size strings
it produces are not settled against the program. -/
def bytesToSize (bytes : Nat) : String :=
  if bytes = 0 then "0 Byte"
  else
    let i := sizeUnitIndex bytes
    toString (jsRound bytes (1024 ^ i)) ++ " " ++
      (["Bytes", "KB", "MB", "GB", "TB", "PB"].getD i "")

/-- Stable insertion into a list sorted by last-modified. -/
def insertByLastModified (x : S3Object) : List S3Object → List S3Object
  | [] => [x]
  | y :: ys => if x.LastModified ≤ y.LastModified then x :: y :: ys
    else y :: insertByLastModified x ys

/-- Lines 298-300: `objectList.sort((a, b) => new Date(a.LastModified) -
new Date(b.LastModified))`, modelled as a comparison sort on the numeric
last-modified value. -/
def sortByLastModified : List S3Object → List S3Object
  | [] => []
  | x :: xs => insertByLastModified x (sortByLastModified xs)

/-- Listed entry after the per-object rewrite of lines 302-311: size rendered
through `bytesToSize`, key replaced by its second slash-separated segment. -/
structure EgressListedObject where
  Key : String
  Size : String
  LastModified : Nat
  projectId : String
  workspaceId : String
  deriving DecidableEq

/-- Result of `getEgressStore` (line 316). -/
structure EgressListResult where
  objectList : List EgressListedObject
  isAbleToSubmitEgressRequest : Bool
  deriving DecidableEq

/-- Per-object rewrite of lines 302-311: the object is listed when
`key.split('/')[1]` is truthy (a present, non-empty segment); its key becomes
that segment, its size is rendered through `bytesToSize`, and the record's
project and workspace ids are attached. -/
def listedEntry (info : EgressStoreRecord) (o : S3Object) : Option EgressListedObject :=
  match (jsSplitSlash o.Key)[1]? with
  | some seg =>
    if seg ≠ "" then
      some { Key := seg, Size := bytesToSize o.Size, LastModified := o.LastModified,
             projectId := info.projectId, workspaceId := info.workspaceId }
    else none
  | none => none

/-- Lines 293-314: fetch everything under the store's path, sort ascending by
last-modified, keep the truthy-keyed objects, then cap the result at 100
entries. -/
def computeObjectList (info : EgressStoreRecord) (objs : List S3Object) :
    List EgressListedObject :=
  let objectList := objs.filter fun o => jsStartsWith o.Key info.s3BucketPath
  let sorted := sortByLastModified objectList
  let result := sorted.filterMap (listedEntry info)
  if result.length > 100 then result.take 100 else result

/-- Lines 278-317, `getEgressStore` (the list operation): feature gate, then
`egressStoreInfo.createdBy` is read before any null check — a missing record
raises the JS TypeError — then owner-or-admin check, then the listing
pipeline.  The state is returned unchanged: the operation never mutates. -/
def getEgressStore (st : Settings) (rc : RequestContext) (environmentId : String)
    (w : SysState) : Except EgressError EgressListResult × SysState :=
  if featureEnabled st.enableEgressStore = true then
    match getEgressStoreInfo w environmentId with
    | .error e => (.error e, w)
    | .ok none => (.error (.nullDereference "createdBy"), w)
    | .ok (some info) =>
      if rc.isAdmin = true ∨ info.createdBy = rc.uid then
        (.ok { objectList := computeObjectList info w.s3Objects,
               isAbleToSubmitEgressRequest := info.isAbleToSubmitEgressRequest }, w)
      else (.error .notAuthorized, w)
  else (.error .featureDisabled, w)

/-- Lines 327-362, `prepareEgressStoreSnapshot`: write the manifest of the
store's current listing to the egress-notification bucket under
`{id}/{name}-ver{ver+1}.json` and return `{bucket, key}`. -/
def prepareEgressStoreSnapshot (st : Settings) (info : EgressStoreRecord) (w : SysState) :
    (String × String) × SysState :=
  let curVersion := info.ver + 1
  let key := info.id ++ "/" ++ info.egressStoreName ++ "-ver" ++ toString curVersion ++ ".json"
  let snapshot := w.s3Objects.filter fun o => jsStartsWith o.Key info.s3BucketPath
  ((st.egressNotificationBucketName, key),
    { w with notifObjects := w.notifObjects ++ [(key, snapshot)] })

/-- Lines 364-426, `notifySNS` (the submit operation): feature gate, then
`egressStoreInfo.isAbleToSubmitEgressRequest` is read before any null check —
a missing record raises the JS TypeError; an ineligible store rejects before
the owner-or-admin check; then the snapshot is written, the record is set to
PENDING (left alone when its upper-cased status already is), stamped, its
`ver` incremented and persisted, and finally the message is handed to SNS —
`publishOk` says whether that external publish succeeds; on failure the
persisted mutation stays. -/
def notifySNS (st : Settings) (rc : RequestContext) (now : String) (msgId : String)
    (environmentId : String) (publishOk : Bool) (w : SysState) :
    Except EgressError SnsMessage × SysState :=
  if featureEnabled st.enableEgressStore = true then
    match getEgressStoreInfo w environmentId with
    | .error e => (.error e, w)
    | .ok none => (.error (.nullDereference "isAbleToSubmitEgressRequest"), w)
    | .ok (some info) =>
      if info.isAbleToSubmitEgressRequest = false then (.error .invalidState, w)
      else if rc.isAdmin = true ∨ info.createdBy = rc.uid then
        let snap := prepareEgressStoreSnapshot st info w
        let w1 := snap.2
        let location := "arn:aws:s3:::" ++ snap.1.1 ++ "/" ++ snap.1.2
        let info2 : EgressStoreRecord := { info with
          status := if jsToUpper info.status ≠ PENDING_STATUS_CODE then PENDING_STATUS_CODE
            else info.status
          updatedBy := rc.uid
          updatedAt := .isoString now
          isAbleToSubmitEgressRequest := false
          egressStoreObjectListLocation := some location
          ver := info.ver + 1 }
        match lockAndUpdate w1 info.id info2 with
        | (.error e, w2) => (.error e, w2)
        | (.ok _, w2) =>
          let message : SnsMessage := {
            egressStoreObjectListLocation := location
            id := msgId
            egress_store_id := info2.id
            egress_store_name := info2.egressStoreName
            created_at := info2.createdAt
            created_by := info2.createdBy
            workspace_id := info2.workspaceId
            project_id := info2.projectId
            s3_bucketname := info2.s3BucketName
            s3_bucketpath := info2.s3BucketPath
            status := info2.status
            updated_by := info2.updatedBy
            updated_at := info2.updatedAt
            ver := info2.ver }
          if publishOk then
            (.ok message, { w2 with publishedMessages := w2.publishedMessages ++ [message] })
          else (.error .publishFailed, w2)
      else (.error .notAuthorized, w)
  else (.error .featureDisabled, w)

/-- Lines 558-562, `enableEgressStoreSubmission`: set
`isAbleToSubmitEgressRequest` and persist under the record lock. -/
def enableEgressStoreSubmission (info : EgressStoreRecord) (w : SysState) :
    Except EgressError Unit × SysState :=
  lockAndUpdate w info.id { info with isAbleToSubmitEgressRequest := true }

instance {ε : Type} {α : Type} [DecidableEq ε] [DecidableEq α] : DecidableEq (Except ε α) :=
  fun x y =>
    match x, y with
    | .error a, .error b =>
      if h : a = b then isTrue (by rw [h]) else isFalse (by simp [h])
    | .error _, .ok _ => isFalse (by simp)
    | .ok _, .error _ => isFalse (by simp)
    | .ok a, .ok b =>
      if h : a = b then isTrue (by rw [h]) else isFalse (by simp [h])

/-! ### Run lemmas -/

lemma getEgressStoreInfo_eq_some {w : SysState} {eid : String} {info : EgressStoreRecord}
    (h : (w.egressTable.take 1000).filter (fun r => r.workspaceId == eid) = [info]) :
    getEgressStoreInfo w eid = .ok (some info) := by
  unfold getEgressStoreInfo
  rw [h]

lemma getEgressStoreInfo_eq_none {w : SysState} {eid : String}
    (h : (w.egressTable.take 1000).filter (fun r => r.workspaceId == eid) = []) :
    getEgressStoreInfo w eid = .ok none := by
  unfold getEgressStoreInfo
  rw [h]

lemma mem_of_filter_take {w : SysState} {eid : String} {info : EgressStoreRecord}
    (h : (w.egressTable.take 1000).filter (fun r => r.workspaceId == eid) = [info]) :
    info ∈ w.egressTable := by
  have hmem : info ∈ (w.egressTable.take 1000).filter (fun r => r.workspaceId == eid) := by
    rw [h]
    exact List.mem_singleton_self info
  exact List.take_subset _ _ (List.mem_of_mem_filter hmem)

lemma lockAndUpdate_of_mem {w : SysState} {dbKey : String} {obj : EgressStoreRecord}
    (h : ∃ r ∈ w.egressTable, r.id = dbKey) :
    lockAndUpdate w dbKey obj =
      (.ok (),
        { w with egressTable := w.egressTable.map fun r => if r.id = dbKey then obj else r }) := by
  unfold lockAndUpdate
  rw [if_pos h]

/-- Record persisted by the terminated branch (lines 236-239): status
TERMINATED, stamped by the caller, submission disabled — `ver` untouched. -/
def terminatedRecord (rc : RequestContext) (now : String)
    (info : EgressStoreRecord) : EgressStoreRecord :=
  { info with
    status := TERMINATED_STATUS_CODE
    updatedBy := rc.uid
    updatedAt := .isoString now
    isAbleToSubmitEgressRequest := false }

lemma terminateEgressStore_run_terminated {st : Settings} {rc : RequestContext}
    (now acct : String) {eid : String} {w : SysState} {info : EgressStoreRecord}
    (hFeat : featureEnabled st.enableEgressStore = true)
    (hRec : (w.egressTable.take 1000).filter (fun r => r.workspaceId == eid) = [info])
    (hAuth : rc.isAdmin = true ∨ info.createdBy = rc.uid)
    (hStatus : jsToUpper info.status = PROCESSED_STATUS_CODE ∨
      (jsToUpper info.status = CREATED_STATUS_CODE ∧
        info.isAbleToSubmitEgressRequest = false)) :
    terminateEgressStore st rc now acct eid w =
      (.ok (some (terminatedRecord rc now info)),
        { w with
          s3Objects := (w.s3Objects.filter fun o => !(jsStartsWith o.Key info.s3BucketPath))
          egressTable := (w.egressTable.map fun r =>
            if r.id = info.id then terminatedRecord rc now info else r)
          bucketPolicy := (removeEgressStoreBucketPolicy w.bucketPolicy
            ("egress-store-" ++ eid) acct) }) := by
  have hNP : jsToUpper info.status ≠ PROCESSING_STATUS_CODE := by
    rcases hStatus with h | ⟨h, _⟩ <;> rw [h] <;> decide
  unfold terminateEgressStore
  rw [if_pos hFeat, getEgressStoreInfo_eq_some hRec]
  dsimp only
  rw [if_pos hAuth, if_neg hNP, if_pos hStatus,
    lockAndUpdate_of_mem (w := { w with s3Objects :=
      (w.s3Objects.filter fun o => !(jsStartsWith o.Key info.s3BucketPath)) })
      ⟨info, mem_of_filter_take hRec, rfl⟩]
  rfl

/-- C1: transition rule of `terminateEgressStore` on an existing record with
an authorized caller and the feature enabled — PROCESSING rejects with the
Conflict error and mutates nothing; PROCESSED or untouched CREATED clears the
storage path, persists the TERMINATED record with submission disabled and
revokes the member account's grant from the bucket policy; every other
status returns the record unchanged with no error and no mutation. -/
theorem terminateEgressStore_transition_rule (st : Settings) (rc : RequestContext)
    (now acct eid : String) (w : SysState) (info : EgressStoreRecord)
    (hFeat : featureEnabled st.enableEgressStore = true)
    (hRec : (w.egressTable.take 1000).filter (fun r => r.workspaceId == eid) = [info])
    (hAuth : rc.isAdmin = true ∨ info.createdBy = rc.uid) :
    (jsToUpper info.status = PROCESSING_STATUS_CODE →
      terminateEgressStore st rc now acct eid w = (.error .conflictProcessing, w)) ∧
    ((jsToUpper info.status = PROCESSED_STATUS_CODE ∨
        (jsToUpper info.status = CREATED_STATUS_CODE ∧
          info.isAbleToSubmitEgressRequest = false)) →
      ∃ info2,
        terminateEgressStore st rc now acct eid w =
          (.ok (some info2),
            { w with
              s3Objects := (w.s3Objects.filter fun o => !(jsStartsWith o.Key info.s3BucketPath))
              egressTable :=
                (w.egressTable.map fun r => if r.id = info.id then info2 else r)
              bucketPolicy :=
                (removeEgressStoreBucketPolicy w.bucketPolicy
                  ("egress-store-" ++ eid) acct) }) ∧
        info2.status = TERMINATED_STATUS_CODE ∧
        info2.isAbleToSubmitEgressRequest = false ∧
        info2.ver = info.ver ∧
        (∀ o ∈ (terminateEgressStore st rc now acct eid w).2.s3Objects,
          jsStartsWith o.Key info.s3BucketPath = false)) ∧
    (jsToUpper info.status ≠ PROCESSING_STATUS_CODE →
      ¬(jsToUpper info.status = PROCESSED_STATUS_CODE ∨
        (jsToUpper info.status = CREATED_STATUS_CODE ∧
          info.isAbleToSubmitEgressRequest = false)) →
      terminateEgressStore st rc now acct eid w = (.ok (some info), w)) := by
  refine ⟨?_, ?_, ?_⟩
  · intro hStatus
    unfold terminateEgressStore
    rw [if_pos hFeat, getEgressStoreInfo_eq_some hRec]
    dsimp only
    rw [if_pos hAuth, if_pos hStatus]
  · intro hStatus
    have hrun := terminateEgressStore_run_terminated now acct hFeat hRec hAuth hStatus
    refine ⟨terminatedRecord rc now info, hrun, rfl, rfl, rfl, ?_⟩
    intro o ho
    rw [hrun] at ho
    have := List.mem_filter.mp ho
    simpa using this.2
  · intro hNP hNT
    unfold terminateEgressStore
    rw [if_pos hFeat, getEgressStoreInfo_eq_some hRec]
    dsimp only
    rw [if_pos hAuth, if_neg hNP, if_neg hNT]

/-- Concrete fixtures shared by the evaluated instantiations below. -/
def sampleSettings : Settings := ⟨some "true", "egress-bucket", "notif-bucket"⟩

def adminContext : RequestContext := ⟨"user1", true⟩

def processedRecord : EgressStoreRecord :=
  ⟨"ws1", "env1-egress-store", .isoString "t0", "user1", "ws1", "proj1", "egress-bucket",
    "ws1/", "PROCESSED", "user1", .isoString "t0", 5, false, none⟩

def sampleState : SysState :=
  ⟨[processedRecord], [⟨"ws1/a.txt", 10, 3⟩], [], [], [], []⟩

/-- C1 witness: the transition rule evaluated on a concrete PROCESSED record
owned by the caller, taking the terminated branch. -/
theorem terminateEgressStore_transition_rule_witness :
    (featureEnabled sampleSettings.enableEgressStore = true) ∧
    ((sampleState.egressTable.take 1000).filter (fun r => r.workspaceId == "ws1") =
      [processedRecord]) ∧
    (adminContext.isAdmin = true ∨ processedRecord.createdBy = adminContext.uid) ∧
    ∃ info2,
      terminateEgressStore sampleSettings adminContext "t1" "acct" "ws1" sampleState =
        (.ok (some info2),
          { sampleState with
            s3Objects := (sampleState.s3Objects.filter fun o =>
              !(jsStartsWith o.Key processedRecord.s3BucketPath))
            egressTable := (sampleState.egressTable.map fun r =>
              if r.id = processedRecord.id then info2 else r)
            bucketPolicy := (removeEgressStoreBucketPolicy sampleState.bucketPolicy
              ("egress-store-" ++ "ws1") "acct") }) ∧
      info2.status = TERMINATED_STATUS_CODE ∧
      info2.isAbleToSubmitEgressRequest = false ∧
      info2.ver = processedRecord.ver ∧
      (∀ o ∈ (terminateEgressStore sampleSettings adminContext "t1" "acct" "ws1"
          sampleState).2.s3Objects,
        jsStartsWith o.Key processedRecord.s3BucketPath = false) := by
  refine ⟨by decide, by decide, Or.inl rfl, ?_⟩
  exact (terminateEgressStore_transition_rule sampleSettings adminContext "t1" "acct" "ws1"
    sampleState processedRecord (by decide) (by decide) (Or.inl rfl)).2.1 (Or.inl (by decide))

/-- Manifest key written by `prepareEgressStoreSnapshot` (line 331):
`{id}/{name}-ver{ver+1}.json`. -/
def manifestKey (info : EgressStoreRecord) : String :=
  info.id ++ "/" ++ info.egressStoreName ++ "-ver" ++ toString (info.ver + 1) ++ ".json"

/-- ARN of the manifest recorded on the record (line 395). -/
def manifestLocation (st : Settings) (info : EgressStoreRecord) : String :=
  "arn:aws:s3:::" ++ st.egressNotificationBucketName ++ "/" ++ manifestKey info

/-- Record persisted by `notifySNS` (lines 389-396): status forced to PENDING
unless already upper-case PENDING, stamped, submission disabled, manifest
location recorded, `ver` incremented. -/
def submittedRecord (st : Settings) (rc : RequestContext) (now : String)
    (info : EgressStoreRecord) : EgressStoreRecord :=
  { info with
    status := if jsToUpper info.status ≠ PENDING_STATUS_CODE then PENDING_STATUS_CODE
      else info.status
    updatedBy := rc.uid
    updatedAt := .isoString now
    isAbleToSubmitEgressRequest := false
    egressStoreObjectListLocation := some (manifestLocation st info)
    ver := info.ver + 1 }

/-- Message built by `notifySNS` (lines 399-414) from the mutated record. -/
def submitMessage (st : Settings) (rc : RequestContext) (now msgId : String)
    (info : EgressStoreRecord) : SnsMessage :=
  let info2 := submittedRecord st rc now info
  { egressStoreObjectListLocation := manifestLocation st info
    id := msgId
    egress_store_id := info2.id
    egress_store_name := info2.egressStoreName
    created_at := info2.createdAt
    created_by := info2.createdBy
    workspace_id := info2.workspaceId
    project_id := info2.projectId
    s3_bucketname := info2.s3BucketName
    s3_bucketpath := info2.s3BucketPath
    status := info2.status
    updated_by := info2.updatedBy
    updated_at := info2.updatedAt
    ver := info2.ver }

lemma notifySNS_run (now msgId : String) (pubOk : Bool) {st : Settings}
    {rc : RequestContext} {eid : String} {w : SysState} {info : EgressStoreRecord}
    (hFeat : featureEnabled st.enableEgressStore = true)
    (hRec : (w.egressTable.take 1000).filter (fun r => r.workspaceId == eid) = [info])
    (hAble : info.isAbleToSubmitEgressRequest = true)
    (hAuth : rc.isAdmin = true ∨ info.createdBy = rc.uid) :
    notifySNS st rc now msgId eid pubOk w =
      (if pubOk then .ok (submitMessage st rc now msgId info) else .error .publishFailed,
        { w with
          notifObjects := (w.notifObjects ++
            [(manifestKey info, w.s3Objects.filter fun o => jsStartsWith o.Key info.s3BucketPath)])
          egressTable := (w.egressTable.map fun r =>
            if r.id = info.id then submittedRecord st rc now info else r)
          publishedMessages := (if pubOk then
            w.publishedMessages ++ [submitMessage st rc now msgId info]
            else w.publishedMessages) }) := by
  unfold notifySNS prepareEgressStoreSnapshot
  rw [if_pos hFeat, getEgressStoreInfo_eq_some hRec]
  dsimp only
  rw [if_neg (by rw [hAble]; decide), if_pos hAuth,
    lockAndUpdate_of_mem (w := { w with notifObjects := (w.notifObjects ++
      [(info.id ++ "/" ++ info.egressStoreName ++ "-ver" ++ toString (info.ver + 1) ++ ".json",
        w.s3Objects.filter fun o => jsStartsWith o.Key info.s3BucketPath)]) })
      ⟨info, mem_of_filter_take hRec, rfl⟩]
  cases pubOk <;> rfl

/-- C4 counterexample: terminating the concrete PROCESSED record with `ver` 5
is an accepted mutation — the persisted record's status becomes TERMINATED —
yet the persisted `ver` is still 5, not incremented. -/
theorem terminate_keeps_ver_counterexample :
    sampleState.egressTable.map (fun r => r.ver) = [5] ∧
    (terminateEgressStore sampleSettings adminContext "t1" "acct" "ws1"
        sampleState).2.egressTable.map (fun r => r.ver) = [5] ∧
    (terminateEgressStore sampleSettings adminContext "t1" "acct" "ws1"
        sampleState).2.egressTable.map (fun r => r.status) = [TERMINATED_STATUS_CODE] := by
  decide

/-- C4, corrected: `ver` is initialized to 0 by create and incremented by
submit-for-egress (`notifySNS`); terminate and `enableEgressStoreSubmission`
persist their mutation with `ver` unchanged, so `ver` is non-decreasing but
not incremented on every accepted mutation. -/
theorem ver_update_behavior (st : Settings) (rc : RequestContext) (env : EnvironmentInput)
    (now acct kms msgId eid : String) (pubOk : Bool) (w : SysState) (info : EgressStoreRecord)
    (hFeat : featureEnabled st.enableEgressStore = true)
    (hRec : (w.egressTable.take 1000).filter (fun r => r.workspaceId == eid) = [info])
    (hAuth : rc.isAdmin = true ∨ info.createdBy = rc.uid) :
    ((¬ ∃ r ∈ w.egressTable, r.id = env.id) →
      ∃ r, (createEgressStore st rc env acct kms w).2.egressTable = w.egressTable ++ [r] ∧
        r.ver = 0) ∧
    (info.isAbleToSubmitEgressRequest = true →
      ∃ r, (notifySNS st rc now msgId eid pubOk w).2.egressTable =
          (w.egressTable.map fun x => if x.id = info.id then r else x) ∧
        r.ver = info.ver + 1) ∧
    ((jsToUpper info.status = PROCESSED_STATUS_CODE ∨
        (jsToUpper info.status = CREATED_STATUS_CODE ∧
          info.isAbleToSubmitEgressRequest = false)) →
      ∃ r, (terminateEgressStore st rc now acct eid w).2.egressTable =
          (w.egressTable.map fun x => if x.id = info.id then r else x) ∧
        r.ver = info.ver ∧ r.status = TERMINATED_STATUS_CODE) ∧
    (∃ r, (enableEgressStoreSubmission info w).2.egressTable =
        (w.egressTable.map fun x => if x.id = info.id then r else x) ∧
      r.ver = info.ver ∧ r.isAbleToSubmitEgressRequest = true) := by
  refine ⟨?_, ?_, ?_, ?_⟩
  · intro hNew
    unfold createEgressStore
    rw [if_pos hFeat, if_neg hNew]
    exact ⟨_, rfl, rfl⟩
  · intro hAble
    rw [notifySNS_run now msgId pubOk hFeat hRec hAble hAuth]
    exact ⟨submittedRecord st rc now info, rfl, rfl⟩
  · intro hStatus
    rw [terminateEgressStore_run_terminated now acct hFeat hRec hAuth hStatus]
    exact ⟨terminatedRecord rc now info, rfl, rfl, rfl⟩
  · unfold enableEgressStoreSubmission
    rw [lockAndUpdate_of_mem ⟨info, mem_of_filter_take hRec, rfl⟩]
    exact ⟨_, rfl, rfl, rfl⟩

/-- C4 witness: the enableSubmission clause evaluated on the concrete
record — the persisted record keeps `ver` 5. -/
theorem ver_update_behavior_witness :
    (featureEnabled sampleSettings.enableEgressStore = true) ∧
    ∃ r, (enableEgressStoreSubmission processedRecord sampleState).2.egressTable =
        (sampleState.egressTable.map fun x => if x.id = processedRecord.id then r else x) ∧
      r.ver = processedRecord.ver ∧ r.isAbleToSubmitEgressRequest = true :=
  ⟨by decide,
    (ver_update_behavior sampleSettings adminContext ⟨"ws2", "env2", "user1", "proj1"⟩
      "t1" "acct" "kms" "m1" "ws1" true sampleState processedRecord
      (by decide) (by decide) (Or.inl rfl)).2.2.2⟩

/-- C5: a submit that passes the feature, eligibility and authorization
checks writes the manifest snapshot, persists the record with status PENDING,
`ver` incremented, the manifest location recorded and submission cleared, and
then publishes; a publish failure surfaces as the publish error while the
persisted mutation stays. -/
theorem notifySNS_submit_behavior (st : Settings) (rc : RequestContext)
    (now msgId eid : String) (pubOk : Bool) (w : SysState) (info : EgressStoreRecord)
    (hFeat : featureEnabled st.enableEgressStore = true)
    (hRec : (w.egressTable.take 1000).filter (fun r => r.workspaceId == eid) = [info])
    (hAble : info.isAbleToSubmitEgressRequest = true)
    (hAuth : rc.isAdmin = true ∨ info.createdBy = rc.uid)
    (hStatus : info.status ∈ [CREATED_STATUS_CODE, PENDING_STATUS_CODE,
      PROCESSING_STATUS_CODE, PROCESSED_STATUS_CODE, TERMINATED_STATUS_CODE]) :
    ∃ info2,
      (notifySNS st rc now msgId eid pubOk w).2 =
        { w with
          notifObjects := (w.notifObjects ++
            [(manifestKey info, w.s3Objects.filter fun o => jsStartsWith o.Key info.s3BucketPath)])
          egressTable := (w.egressTable.map fun r => if r.id = info.id then info2 else r)
          publishedMessages := (if pubOk then
            w.publishedMessages ++ [submitMessage st rc now msgId info]
            else w.publishedMessages) } ∧
      info2.status = PENDING_STATUS_CODE ∧
      info2.ver = info.ver + 1 ∧
      info2.isAbleToSubmitEgressRequest = false ∧
      info2.egressStoreObjectListLocation = some (manifestLocation st info) ∧
      (pubOk = true →
        (notifySNS st rc now msgId eid pubOk w).1 = .ok (submitMessage st rc now msgId info)) ∧
      (pubOk = false →
        (notifySNS st rc now msgId eid pubOk w).1 = .error .publishFailed) := by
  refine ⟨submittedRecord st rc now info, ?_, ?_, rfl, rfl, rfl, ?_, ?_⟩
  · rw [notifySNS_run now msgId pubOk hFeat hRec hAble hAuth]
  · have h5 : info.status = CREATED_STATUS_CODE ∨ info.status = PENDING_STATUS_CODE ∨
        info.status = PROCESSING_STATUS_CODE ∨ info.status = PROCESSED_STATUS_CODE ∨
        info.status = TERMINATED_STATUS_CODE := by simpa using hStatus
    unfold submittedRecord
    rcases h5 with h | h | h | h | h <;> rw [h] <;> dsimp only <;> decide
  · intro hp
    subst hp
    rw [notifySNS_run now msgId true hFeat hRec hAble hAuth]
    rfl
  · intro hp
    subst hp
    rw [notifySNS_run now msgId false hFeat hRec hAble hAuth]
    rfl

/-- Concrete record eligible for submission and its state. -/
def submittableRecord : EgressStoreRecord :=
  ⟨"ws1", "env1-egress-store", .isoString "t0", "user1", "ws1", "proj1", "egress-bucket",
    "ws1/", "PROCESSED", "user1", .isoString "t0", 5, true, none⟩

def submittableState : SysState :=
  ⟨[submittableRecord], [⟨"ws1/a.txt", 10, 3⟩], [], [], [], []⟩

/-- C5 witness: the submit behavior evaluated on a concrete eligible record
with a failing publish transport. -/
theorem notifySNS_submit_behavior_witness :
    (featureEnabled sampleSettings.enableEgressStore = true) ∧
    ((submittableState.egressTable.take 1000).filter (fun r => r.workspaceId == "ws1") =
      [submittableRecord]) ∧
    (submittableRecord.isAbleToSubmitEgressRequest = true) ∧
    ∃ info2,
      (notifySNS sampleSettings adminContext "t1" "m1" "ws1" false submittableState).2 =
        { submittableState with
          notifObjects := (submittableState.notifObjects ++
            [(manifestKey submittableRecord, submittableState.s3Objects.filter fun o =>
              jsStartsWith o.Key submittableRecord.s3BucketPath)])
          egressTable := (submittableState.egressTable.map fun r =>
            if r.id = submittableRecord.id then info2 else r)
          publishedMessages := (if false then
            submittableState.publishedMessages ++
              [submitMessage sampleSettings adminContext "t1" "m1" submittableRecord]
            else submittableState.publishedMessages) } ∧
      info2.status = PENDING_STATUS_CODE ∧
      info2.ver = submittableRecord.ver + 1 ∧
      info2.isAbleToSubmitEgressRequest = false ∧
      info2.egressStoreObjectListLocation =
        some (manifestLocation sampleSettings submittableRecord) ∧
      (false = true →
        (notifySNS sampleSettings adminContext "t1" "m1" "ws1" false submittableState).1 =
          .ok (submitMessage sampleSettings adminContext "t1" "m1" submittableRecord)) ∧
      (false = false →
        (notifySNS sampleSettings adminContext "t1" "m1" "ws1" false submittableState).1 =
          .error .publishFailed) :=
  ⟨by decide, by decide, rfl,
    notifySNS_submit_behavior sampleSettings adminContext "t1" "m1" "ws1" false
      submittableState submittableRecord (by decide) (by decide) rfl (Or.inl rfl)
      (by decide)⟩

/-- C6: a create on a workspace whose record already exists fails with the
AlreadyExists error (the conditional `attribute_not_exists` write rejects)
and leaves the table and the bucket policy unchanged. -/
theorem createEgressStore_alreadyExists (st : Settings) (rc : RequestContext)
    (env : EnvironmentInput) (acct kms : String) (w : SysState)
    (hFeat : featureEnabled st.enableEgressStore = true)
    (hEx : ∃ r ∈ w.egressTable, r.id = env.id) :
    (createEgressStore st rc env acct kms w).1 = .error .alreadyExists ∧
    (createEgressStore st rc env acct kms w).2.egressTable = w.egressTable ∧
    (createEgressStore st rc env acct kms w).2.bucketPolicy = w.bucketPolicy := by
  unfold createEgressStore
  rw [if_pos hFeat, if_pos hEx]
  exact ⟨rfl, rfl, rfl⟩

/-- C6 witness: a second create on the already-populated concrete state. -/
theorem createEgressStore_alreadyExists_witness :
    (featureEnabled sampleSettings.enableEgressStore = true) ∧
    (∃ r ∈ sampleState.egressTable, r.id = "ws1") ∧
    (createEgressStore sampleSettings adminContext ⟨"ws1", "env1", "user1", "proj1"⟩
        "acct" "kms" sampleState).1 = .error .alreadyExists ∧
    (createEgressStore sampleSettings adminContext ⟨"ws1", "env1", "user1", "proj1"⟩
        "acct" "kms" sampleState).2.egressTable = sampleState.egressTable ∧
    (createEgressStore sampleSettings adminContext ⟨"ws1", "env1", "user1", "proj1"⟩
        "acct" "kms" sampleState).2.bucketPolicy = sampleState.bucketPolicy :=
  ⟨by decide, by decide,
    createEgressStore_alreadyExists sampleSettings adminContext
      ⟨"ws1", "env1", "user1", "proj1"⟩ "acct" "kms" sampleState (by decide) (by decide)⟩

/-- C7: a submit on a store whose record disables submission fails with the
InvalidState error before any snapshot, mutation or publish — the whole
state is returned unchanged. -/
theorem notifySNS_invalidState (st : Settings) (rc : RequestContext)
    (now msgId eid : String) (pubOk : Bool) (w : SysState) (info : EgressStoreRecord)
    (hFeat : featureEnabled st.enableEgressStore = true)
    (hRec : (w.egressTable.take 1000).filter (fun r => r.workspaceId == eid) = [info])
    (hAble : info.isAbleToSubmitEgressRequest = false) :
    notifySNS st rc now msgId eid pubOk w = (.error .invalidState, w) := by
  unfold notifySNS
  rw [if_pos hFeat, getEgressStoreInfo_eq_some hRec]
  dsimp only
  rw [if_pos hAble]

/-- C7 witness: submit on the concrete ineligible record. -/
theorem notifySNS_invalidState_witness :
    (featureEnabled sampleSettings.enableEgressStore = true) ∧
    ((sampleState.egressTable.take 1000).filter (fun r => r.workspaceId == "ws1") =
      [processedRecord]) ∧
    (processedRecord.isAbleToSubmitEgressRequest = false) ∧
    notifySNS sampleSettings adminContext "t1" "m1" "ws1" true sampleState =
      (.error .invalidState, sampleState) :=
  ⟨by decide, by decide, rfl,
    notifySNS_invalidState sampleSettings adminContext "t1" "m1" "ws1" true
      sampleState processedRecord (by decide) (by decide) rfl⟩

/-- Concrete state with no egress-store record. -/
def emptyState : SysState := ⟨[], [], [], [], [], []⟩

/-- C9: on a workspace with no record, the list and submit operations
dereference the `null` lookup (`createdBy` and
`isAbleToSubmitEgressRequest` respectively) before any existence check and
fail with the runtime null-access error, while terminate checks for `null`
first and returns `null` cleanly; no state is mutated. -/
theorem null_dereference_on_missing_record (st : Settings) (rc : RequestContext)
    (now msgId acct eid : String) (pubOk : Bool) (w : SysState)
    (hFeat : featureEnabled st.enableEgressStore = true)
    (hNone : (w.egressTable.take 1000).filter (fun r => r.workspaceId == eid) = []) :
    getEgressStore st rc eid w = (.error (.nullDereference "createdBy"), w) ∧
    notifySNS st rc now msgId eid pubOk w =
      (.error (.nullDereference "isAbleToSubmitEgressRequest"), w) ∧
    terminateEgressStore st rc now acct eid w = (.ok none, w) := by
  refine ⟨?_, ?_, ?_⟩
  · unfold getEgressStore
    rw [if_pos hFeat, getEgressStoreInfo_eq_none hNone]
  · unfold notifySNS
    rw [if_pos hFeat, getEgressStoreInfo_eq_none hNone]
  · unfold terminateEgressStore
    rw [if_pos hFeat, getEgressStoreInfo_eq_none hNone]

/-- C9 witness: the three operations evaluated on the empty concrete state. -/
theorem null_dereference_on_missing_record_witness :
    (featureEnabled sampleSettings.enableEgressStore = true) ∧
    ((emptyState.egressTable.take 1000).filter (fun r => r.workspaceId == "ws1") = []) ∧
    getEgressStore sampleSettings adminContext "ws1" emptyState =
      (.error (.nullDereference "createdBy"), emptyState) ∧
    notifySNS sampleSettings adminContext "t1" "m1" "ws1" true emptyState =
      (.error (.nullDereference "isAbleToSubmitEgressRequest"), emptyState) ∧
    terminateEgressStore sampleSettings adminContext "t1" "acct" "ws1" emptyState =
      (.ok none, emptyState) :=
  ⟨by decide, by decide,
    null_dereference_on_missing_record sampleSettings adminContext "t1" "m1" "acct" "ws1"
      true emptyState (by decide) (by decide)⟩

/-- C10: a successful create appends a record whose `createdAt` and
`updatedAt` hold the un-invoked `toISOString` function reference — never an
ISO-8601 string (line 121 reads `new Date().toISOString` without calling
it). -/
theorem createEgressStore_createdAt_funcRef (st : Settings) (rc : RequestContext)
    (env : EnvironmentInput) (acct kms : String) (w : SysState)
    (hFeat : featureEnabled st.enableEgressStore = true)
    (hNew : ¬ ∃ r ∈ w.egressTable, r.id = env.id) :
    ∃ r, (createEgressStore st rc env acct kms w).2.egressTable = w.egressTable ++ [r] ∧
      (∃ d, (createEgressStore st rc env acct kms w).1 = .ok d) ∧
      r.createdAt = JsTimeVal.funcRef ∧
      r.updatedAt = JsTimeVal.funcRef ∧
      ∀ t : String, r.createdAt ≠ JsTimeVal.isoString t := by
  unfold createEgressStore
  rw [if_pos hFeat, if_neg hNew]
  exact ⟨_, rfl, ⟨_, rfl⟩, rfl, rfl, fun t h => JsTimeVal.noConfusion h⟩

/-- C10 witness: a create on the empty concrete state. -/
theorem createEgressStore_createdAt_funcRef_witness :
    (featureEnabled sampleSettings.enableEgressStore = true) ∧
    (¬ ∃ r ∈ emptyState.egressTable, r.id = "ws1") ∧
    ∃ r, (createEgressStore sampleSettings adminContext ⟨"ws1", "env1", "user1", "proj1"⟩
          "acct" "kms" emptyState).2.egressTable = emptyState.egressTable ++ [r] ∧
      (∃ d, (createEgressStore sampleSettings adminContext ⟨"ws1", "env1", "user1", "proj1"⟩
          "acct" "kms" emptyState).1 = .ok d) ∧
      r.createdAt = JsTimeVal.funcRef ∧
      r.updatedAt = JsTimeVal.funcRef ∧
      ∀ t : String, r.createdAt ≠ JsTimeVal.isoString t :=
  ⟨by decide, by decide,
    createEgressStore_createdAt_funcRef sampleSettings adminContext
      ⟨"ws1", "env1", "user1", "proj1"⟩ "acct" "kms" emptyState (by decide) (by decide)⟩

end DataEgress
